import Mathlib

/-!
Verification development for the mmengine lazy-config engine
(`mmengine/config`: `LazyCall`, `instantiate`, `LazyConfig.load/save/
apply_overrides/to_py`).

The configuration value space is modelled as the closed sum type the spec
prescribes (scalars, sequences, string-keyed mappings, Call Descriptors,
plain object instances), with Call Descriptors stored as mapping nodes
tagged with the reserved key `_target_` exactly as the store represents
them.  Callables are modelled as a tagged registry (`Callable`) together
with the Target Identity Codec (`encodeId`/`decodeId`), following the
spec's design note that a faithful static reimplementation replaces
reflective import by an explicit registry.
-/

/-- Modelled from the spec: the registry of callables/classes reachable by
the Target Identity Codec.  `count` is `itertools.count`, `pylen` is
`builtins.len`, `testClass` is the `TestClass` defined in
`tests/test_config/test_instantiate.py`, and `lam` is a locally defined
lambda with no stable importable dotted path (hence not encodable). -/
inductive Callable where
  | count
  | pylen
  | testClass
  | lam
deriving DecidableEq, Repr

/-- Modelled from the spec: `encode(callable_or_class)` of the Target
Identity Codec returns the stable string identity `module.qualified.name`,
and fails (`none`) for values with no stable importable path. -/
def encodeId : Callable → Option String
  | .count => some "itertools.count"
  | .pylen => some "builtins.len"
  | .testClass => some "test_instantiate.TestClass"
  | .lam => none

/-- Modelled from the spec: `decode(string)` of the Target Identity Codec
imports the dotted path and returns the callable, failing for unknown
paths. -/
def decodeId : String → Option Callable
  | "itertools.count" => some .count
  | "builtins.len" => some .pylen
  | "test_instantiate.TestClass" => some .testClass
  | _ => none

mutual
/-- Modelled from the spec: the configuration value space as a closed sum
type.  Scalars (`vint`, `vfloat` carrying its decimal literal, `vstr`,
`vbool`, `vnone`), resolved callables (`vcallable`), plain object
instances (`vobj`, with a flag telling dataclasses with named fields from
opaque instances), ordered sequences (`vlist`) and string-keyed ordered
mappings (`vmap`).  A Call Descriptor is a `vmap` carrying the reserved
key `_target_`. -/
inductive Value where
  | vint (n : Int)
  | vfloat (lit : String)
  | vstr (s : String)
  | vbool (b : Bool)
  | vnone
  | vcallable (c : Callable)
  | vobj (isDataclass : Bool) (tag : String) (fields : KVList)
  | vlist (xs : VList)
  | vmap (es : KVList)

/-- A sequence of configuration values. -/
inductive VList where
  | nil
  | cons (v : Value) (t : VList)

/-- An ordered association list of string keys to configuration values. -/
inductive KVList where
  | nil
  | cons (k : String) (v : Value) (t : KVList)
end

/-- The reserved key marking a mapping node as a Call Descriptor. -/
def targetKey : String := "_target_"

def vlOf : List Value → VList
  | [] => .nil
  | v :: t => .cons v (vlOf t)

def kvOf : List (String × Value) → KVList
  | [] => .nil
  | (k, v) :: t => .cons k v (kvOf t)

/-- Whether a key occurs in an association list. -/
def hasKey (k : String) : KVList → Bool
  | .nil => false
  | .cons k2 _ t => k == k2 || hasKey k t

/-- First value bound to a key, if any. -/
def findVal (k : String) : KVList → Option Value
  | .nil => none
  | .cons k2 v t => if k == k2 then some v else findVal k t

/-- Rebind a key (first occurrence), appending at the end if absent. -/
def setKey (k : String) (nv : Value) : KVList → KVList
  | .nil => .cons k nv .nil
  | .cons k2 v t => if k == k2 then .cons k2 nv t else .cons k2 v (setKey k nv t)

/-- Whether a value is a container node (a mapping); only such nodes can
be traversed by a non-final dotted-path segment. -/
def isContainer : Value → Bool
  | .vmap _ => true
  | _ => false

/-- Dotted-path read access on a store. -/
def getPath : Value → List String → Option Value
  | v, [] => some v
  | .vmap es, k :: rest =>
      match findVal k es with
      | some child => getPath child rest
      | none => none
  | _, _ :: _ => none

mutual
/-- Structural equality of values, as a Bool. -/
def veq : Value → Value → Bool
  | .vint a, .vint b => a == b
  | .vfloat a, .vfloat b => a == b
  | .vstr a, .vstr b => a == b
  | .vbool a, .vbool b => a == b
  | .vnone, .vnone => true
  | .vcallable a, .vcallable b => a == b
  | .vobj d1 t1 f1, .vobj d2 t2 f2 => d1 == d2 && t1 == t2 && keq f1 f2
  | .vlist a, .vlist b => leq a b
  | .vmap a, .vmap b => keq a b
  | _, _ => false

def leq : VList → VList → Bool
  | .nil, .nil => true
  | .cons a t1, .cons b t2 => veq a b && leq t1 t2
  | _, _ => false

def keq : KVList → KVList → Bool
  | .nil, .nil => true
  | .cons k1 v1 t1, .cons k2 v2 t2 => k1 == k2 && veq v1 v2 && keq t1 t2
  | _, _ => false
end

/-- Modelled from the spec and `TestClass.__init__` in
`tests/test_config/test_instantiate.py`: invoking a registry callable with
keyword arguments.  `TestClass(**kwargs)` stores `int_arg`, `list_arg`,
`dict_arg`, `extra_arg` (defaulting to `None`) on a plain instance;
`itertools.count(**kwargs)` yields an opaque iterator object; `len` does
not accept keyword arguments; a lambda is opaque to the model. -/
def invokeCallable : Callable → KVList → Except String Value
  | .testClass, args =>
      .ok (.vobj false "TestClass" (kvOf [
        ("int_arg", (findVal "int_arg" args).getD .vnone),
        ("list_arg", (findVal "list_arg" args).getD .vnone),
        ("dict_arg", (findVal "dict_arg" args).getD .vnone),
        ("extra_arg", (findVal "extra_arg" args).getD .vnone)]))
  | .count, args => .ok (.vobj false "count" args)
  | .pylen, _ => .error "TypeError: len() takes no keyword arguments"
  | .lam, _ => .error "InstantiationError: opaque callable"

/-- Modelled from the spec and `TestClass.__call__` in
`tests/test_config/test_instantiate.py`: invoking a resolved target value.
A registry callable dispatches to `invokeCallable`; a `TestClass` instance
is itself callable and returns `call_arg + self.int_arg`; anything else
raises the InstantiationError for a non-callable target. -/
def callValue : Value → KVList → Except String Value
  | .vcallable c, args => invokeCallable c args
  | .vobj _ "TestClass" fields, args =>
      match findVal "call_arg" args, findVal "int_arg" fields with
      | some (.vint a), some (.vint b) => .ok (.vint (a + b))
      | _, _ => .error "TypeError: TestClass.__call__ bad arguments"
  | _, _ => .error "InstantiationError: target is not callable"

mutual
/-- Modelled from the spec (Resolver contract, spec section 4.2): walk a
value; sequences are resolved element-wise; a mapping carrying the
reserved `_target_` key is a Call Descriptor: its target is resolved
fully (recursively, strings via the Target Identity Codec), every
argument value is resolved via `instantiate`, and the resolved target is
invoked with the resolved keyword arguments; a dataclass instance is
rebuilt with each field resolved; a mapping without the reserved key, a
scalar, a resolved callable or an opaque instance is returned
unchanged. -/
def instantiate : Value → Except String Value
  | .vlist xs =>
      match instantiateL xs with
      | .ok ys => .ok (.vlist ys)
      | .error e => .error e
  | .vmap es =>
      if hasKey targetKey es then
        match instEntries es with
        | .ok (some tv, args) => callValue tv args
        | .ok (none, _) => .error "InstantiationError: missing target"
        | .error e => .error e
      else .ok (.vmap es)
  | .vobj true tag fs =>
      match instKVAll fs with
      | .ok gs => .ok (.vobj true tag gs)
      | .error e => .error e
  | v => .ok v

/-- Element-wise resolution of a sequence (order preserved). -/
def instantiateL : VList → Except String VList
  | .nil => .ok .nil
  | .cons v t =>
      match instantiate v, instantiateL t with
      | .ok v2, .ok t2 => .ok (.cons v2 t2)
      | .error e, _ => .error e
      | _, .error e => .error e

/-- Resolution of a Call Descriptor's entries: the reserved-key entry is
resolved as a target (a resolved callable stays; a string is decoded by
the Target Identity Codec, with an ImportError-kind failure when it
cannot be located; anything else, notably a nested Call Descriptor, is
resolved recursively via `instantiate`) and removed from the arguments;
every other entry's value is resolved via `instantiate`. -/
def instEntries : KVList → Except String (Option Value × KVList)
  | .nil => .ok (none, .nil)
  | .cons k v t =>
      if k == targetKey then
        let rt : Except String Value :=
          match v with
          | .vcallable c => .ok (.vcallable c)
          | .vstr s =>
              match decodeId s with
              | some c => .ok (.vcallable c)
              | none => .error ("ImportError: cannot locate " ++ s)
          | .vint n => .ok (.vint n)
          | .vfloat l => .ok (.vfloat l)
          | .vbool b => .ok (.vbool b)
          | .vnone => .ok .vnone
          | .vobj false tg fs => .ok (.vobj false tg fs)
          | .vobj true tg fs =>
              match instKVAll fs with
              | .ok gs => .ok (.vobj true tg gs)
              | .error e => .error e
          | .vlist xs =>
              match instantiateL xs with
              | .ok ys => .ok (.vlist ys)
              | .error e => .error e
          | .vmap es =>
              if hasKey targetKey es then
                match instEntries es with
                | .ok (some tv, args) => callValue tv args
                | .ok (none, _) => .error "InstantiationError: missing target"
                | .error e => .error e
              else .ok (.vmap es)
        match rt, instEntries t with
        | .ok tv, .ok (_, args) => .ok (some tv, args)
        | .error e, _ => .error e
        | _, .error e => .error e
      else
        match instantiate v, instEntries t with
        | .ok v2, .ok (tv, args) => .ok (tv, .cons k v2 args)
        | .error e, _ => .error e
        | _, .error e => .error e

/-- Field-wise resolution of a dataclass instance's fields. -/
def instKVAll : KVList → Except String KVList
  | .nil => .ok .nil
  | .cons k v t =>
      match instantiate v, instKVAll t with
      | .ok v2, .ok t2 => .ok (.cons k v2 t2)
      | .error e, _ => .error e
      | _, .error e => .error e
end

/-- The character `\x7b` (opening brace). -/
def lbrace : Char := Char.ofNat 123

/-- The character `\x7d` (closing brace). -/
def rbrace : Char := Char.ofNat 125

/-- Split a character list on a separator character. -/
def splitOnChar (c : Char) : List Char → List (List Char)
  | [] => [[]]
  | a :: t =>
      let r := splitOnChar c t
      if a == c then [] :: r
      else
        match r with
        | [] => [[a]]
        | h :: rt => (a :: h) :: rt

/-- Split a dotted path string into its segments. -/
def splitDots (s : String) : List String :=
  (splitOnChar '.' s.data).map fun l => ⟨l⟩

/-- Modelled from the spec: recognize an interpolation expression
`$\x7bdotted.path\x7d` and return its dotted path, or `none` for an
ordinary string. -/
def interpPath (s : String) : Option (List String) :=
  match s.data with
  | '$' :: c :: rest =>
      if c == lbrace then
        match rest.reverse with
        | d :: body =>
            if d == rbrace then
              some ((splitOnChar '.' body.reverse).map fun l => ⟨l⟩)
            else none
        | [] => none
      else none
  | _ => none

mutual
/-- Modelled from the spec: the Interpolation-Carrying Store's deep
`resolve` capability.  Every string value that is an interpolation
expression is replaced by the value found at the referenced dotted path
of the same document (itself resolved further, chains permitted up to
the fuel bound); containers are resolved recursively; everything else is
unchanged. -/
def resolveInterp (root : Value) : Nat → Value → Except String Value
  | 0, _ => .error "InterpolationResolutionError: depth exceeded"
  | f + 1, v =>
      match v with
      | .vstr s =>
          match interpPath s with
          | some p =>
              match getPath root p with
              | some w => resolveInterp root f w
              | none => .error ("InterpolationKeyError: " ++ s)
          | none => .ok (.vstr s)
      | .vlist xs =>
          match resolveInterpL root f xs with
          | .ok ys => .ok (.vlist ys)
          | .error e => .error e
      | .vmap es =>
          match resolveInterpKV root f es with
          | .ok gs => .ok (.vmap gs)
          | .error e => .error e
      | w => .ok w

/-- Element-wise interpolation resolution of a sequence. -/
def resolveInterpL (root : Value) : Nat → VList → Except String VList
  | 0, _ => .error "InterpolationResolutionError: depth exceeded"
  | _ + 1, .nil => .ok .nil
  | f + 1, .cons v t =>
      match resolveInterp root f v, resolveInterpL root f t with
      | .ok v2, .ok t2 => .ok (.cons v2 t2)
      | .error e, _ => .error e
      | _, .error e => .error e

/-- Value-wise interpolation resolution of a mapping. -/
def resolveInterpKV (root : Value) : Nat → KVList → Except String KVList
  | 0, _ => .error "InterpolationResolutionError: depth exceeded"
  | _ + 1, .nil => .ok .nil
  | f + 1, .cons k v t =>
      match resolveInterp root f v, resolveInterpKV root f t with
      | .ok v2, .ok t2 => .ok (.cons k v2 t2)
      | .error e, _ => .error e
      | _, .error e => .error e
end

/-- Modelled from the spec: `instantiate` on a whole configuration
document first has the store resolve its interpolation expressions
against the document itself, then runs the Resolver. -/
def instantiateTop (cfg : Value) : Except String Value :=
  match resolveInterp cfg 1000 cfg with
  | .ok r => instantiate r
  | .error e => .error e

/-- Modelled from the spec (Lazy Builder contract, spec section 4.1) and
`tests/test_config/test_instantiate.py`: `LazyCall(T)` validates the
target immediately — a resolved callable/class, a dotted-path string, or
(as `test_instantiate_lazy_target` requires by building
`L(L(len)(int_arg=3))` without an error) a mapping such as a nested Call
Descriptor; anything else fails at build time with a ConstructionError.
The returned builder, applied to keyword arguments, produces the Call
Descriptor mapping with `target=T` and the arguments stored as-is. -/
def LazyCall : Value → Except String (KVList → Value)
  | .vcallable c => .ok (fun kwargs => .vmap (.cons targetKey (.vcallable c) kwargs))
  | .vstr s => .ok (fun kwargs => .vmap (.cons targetKey (.vstr s) kwargs))
  | .vmap es => .ok (fun kwargs => .vmap (.cons targetKey (.vmap es) kwargs))
  | _ => .error "ConstructionError: LazyCall target must be callable, a class, or a string"

/-- Whether a value is an acceptable `LazyCall` target per the claim's
wording: callable, a class, or a string. -/
def isCallableClassOrString : Value → Bool
  | .vcallable _ => true
  | .vstr _ => true
  | _ => false

/-- Parse a natural number from decimal digits, failing on anything
else. -/
def parseNatChars : List Char → Option Nat
  | [] => none
  | cs => go cs 0
where
  go : List Char → Nat → Option Nat
  | [], acc => some acc
  | c :: t, acc =>
      if c.isDigit then go t (acc * 10 + (c.toNat - 48)) else none

/-- Split an override string at its first `=`. -/
def splitFirstEq : List Char → Option (List Char × List Char)
  | [] => none
  | c :: t =>
      if c == '=' then some ([], t)
      else
        match splitFirstEq t with
        | some (a, b) => some (c :: a, b)
        | none => none

/-- Modelled from the spec (Override Applier, spec section 4.4):
best-effort typed-literal parsing of the right-hand side of an override —
integers, booleans, quoted strings — falling back to the raw string. -/
def parseLiteral (s : String) : Value :=
  match s.data with
  | '"' :: rest =>
      match rest.reverse with
      | '"' :: body => .vstr ⟨body.reverse⟩
      | _ => .vstr s
  | '-' :: ds =>
      match parseNatChars ds with
      | some n => .vint (-(n : Int))
      | none => .vstr s
  | ds =>
      if s == "True" then .vbool true
      else if s == "False" then .vbool false
      else
        match parseNatChars ds with
        | some n => .vint (n : Int)
        | none => .vstr s

/-- Modelled from the spec (Override Applier, spec section 4.4): walk the
store along a dotted path; every non-final segment must already exist and
be a container (no auto-vivification), raising a KeyError-kind failure
otherwise; the final segment is set, created if absent. -/
def setPath : Value → List String → Value → Except String Value
  | .vmap es, [k], nv => .ok (.vmap (setKey k nv es))
  | .vmap es, k :: k2 :: rest, nv =>
      match findVal k es with
      | none => .error ("KeyError: missing path segment " ++ k)
      | some child =>
          match setPath child (k2 :: rest) nv with
          | .ok c2 => .ok (.vmap (setKey k c2 es))
          | .error e => .error e
  | _, _, _ => .error "KeyError: path segment does not name a container"

/-- Parse a `dotted.path=literal` override string. -/
def parseOverride (ov : String) : Option (List String × Value) :=
  match splitFirstEq ov.data with
  | some (k, v) => some (splitDots ⟨k⟩, parseLiteral ⟨v⟩)
  | none => none

/-- Apply one override string to a store. -/
def applyOverride (store : Value) (ov : String) : Except String Value :=
  match parseOverride ov with
  | some (p, lit) => setPath store p lit
  | none => .error "SyntaxError: override must contain ="

/-- Modelled from the spec: `LazyConfig.apply_overrides` applies a batch
of override strings in listed order, stopping at the first failure. -/
def apply_overrides : Value → List String → Except String Value
  | store, [] => .ok store
  | store, ov :: t =>
      match applyOverride store ov with
      | .ok s2 => apply_overrides s2 t
      | .error e => .error e

mutual
/-- Modelled from the spec (Serializer contract, spec section 4.5): the
textual encoding pass of `LazyConfig.save` walks the store and replaces
every Call Descriptor's resolved-callable target with its encoded string
identity; every other value is preserved structurally (in particular,
interpolation-expression strings are written as-is, not resolved). -/
def encodeTargets : Value → Value
  | .vlist xs => .vlist (encodeTargetsL xs)
  | .vmap es => .vmap (encodeTargetsKV es)
  | v => v

/-- Element-wise target encoding of a sequence. -/
def encodeTargetsL : VList → VList
  | .nil => .nil
  | .cons v t => .cons (encodeTargets v) (encodeTargetsL t)

/-- Entry-wise target encoding of a mapping; the reserved-key entry's
resolved callable becomes its string identity (unencodable callables are
left in place, which is exactly the non-representable situation that
triggers the binary side-channel fallback). -/
def encodeTargetsKV : KVList → KVList
  | .nil => .nil
  | .cons k v t =>
      if k == targetKey then
        match v with
        | .vcallable c =>
            match encodeId c with
            | some s => .cons k (.vstr s) (encodeTargetsKV t)
            | none => .cons k (.vcallable c) (encodeTargetsKV t)
        | w => .cons k (encodeTargets w) (encodeTargetsKV t)
      else .cons k (encodeTargets v) (encodeTargetsKV t)
end

mutual
/-- Modelled from the spec: whether a value is representable in the
textual format.  Resolved callables are representable only as an
encodable Call Descriptor target; opaque object instances are never
representable; scalars, sequences and mappings are representable when
their components are. -/
def representable : Value → Bool
  | .vint _ | .vfloat _ | .vstr _ | .vbool _ | .vnone => true
  | .vcallable _ => false
  | .vobj _ _ _ => false
  | .vlist xs => representableL xs
  | .vmap es => representableKV es

def representableL : VList → Bool
  | .nil => true
  | .cons v t => representable v && representableL t

def representableKV : KVList → Bool
  | .nil => true
  | .cons k v t =>
      (if k == targetKey then
        match v with
        | .vcallable c => (encodeId c).isSome
        | w => representable w
      else representable v) && representableKV t
end

/-- Modelled from the spec: the outcome of `LazyConfig.save(cfg, path)` —
the primary text file's content, the optional opaque binary side-channel
artifact at the primary path plus the pkl suffix, and whether a
degraded-save warning was emitted. -/
structure SaveResult where
  primary : Value
  sideChannel : Option Value
  warned : Bool

/-- Modelled from the spec: `LazyConfig.save` always writes the primary
text file with targets encoded; when some value is not representable in
the textual format it additionally writes the whole store as the binary
side-channel artifact and emits a warning instead of failing. -/
def save (store : Value) : SaveResult :=
  if representable store then
    { primary := encodeTargets store, sideChannel := none, warned := false }
  else
    { primary := encodeTargets store, sideChannel := some store, warned := true }

/-- Modelled from the spec: `LazyConfig.load` of a saved configuration
parses the text back into a store, leaving every target-identity string
as a deferred string target (not eagerly decoded); when the binary
side-channel artifact exists it is preferred for the values the text
form could not represent. -/
def loadSaved (sr : SaveResult) : Value :=
  match sr.sideChannel with
  | some orig => orig
  | none => sr.primary

/-- The `load(save(C))` round trip. -/
def saveLoad (store : Value) : Value :=
  loadSaved (save store)

mutual
/-- Equality of two stores up to the reserved-key target tag: identical
everywhere except that a resolved-callable target on the left may
correspond to its encoded string identity on the right. -/
def eqUpToTarget : Value → Value → Bool
  | .vlist a, .vlist b => eqUpToTargetL a b
  | .vmap a, .vmap b => eqUpToTargetKV a b
  | a, b => veq a b

def eqUpToTargetL : VList → VList → Bool
  | .nil, .nil => true
  | .cons a t1, .cons b t2 => eqUpToTarget a b && eqUpToTargetL t1 t2
  | _, _ => false

def eqUpToTargetKV : KVList → KVList → Bool
  | .nil, .nil => true
  | .cons k1 v1 t1, .cons k2 v2 t2 =>
      k1 == k2 &&
      (if k1 == targetKey then
        match v1, v2 with
        | .vcallable c, .vstr s => encodeId c == some s
        | a, b => eqUpToTarget a b
      else eqUpToTarget v1 v2) &&
      eqUpToTargetKV t1 t2
  | _, _ => false
end

mutual
/-- Whether a store is free of resolved callables, i.e. every Call
Descriptor target is carried as a deferred string identity. -/
def noCallables : Value → Bool
  | .vcallable _ => false
  | .vlist xs => noCallablesL xs
  | .vmap es => noCallablesKV es
  | .vobj _ _ fs => noCallablesKV fs
  | _ => true

def noCallablesL : VList → Bool
  | .nil => true
  | .cons v t => noCallables v && noCallablesL t

def noCallablesKV : KVList → Bool
  | .nil => true
  | .cons _ v t => noCallables v && noCallablesKV t
end


/-- Representability of a single mapping entry. -/
def reprEntryB (k : String) (v : Value) : Bool :=
  if k == targetKey then
    match v with
    | .vcallable c => (encodeId c).isSome
    | w => representable w
  else representable v

/-- Textual encoding of a single mapping entry's value. -/
def encEntryB (k : String) (v : Value) : Value :=
  if k == targetKey then
    match v with
    | .vcallable c =>
        match encodeId c with
        | some s => .vstr s
        | none => .vcallable c
    | w => encodeTargets w
  else encodeTargets v

/-- Equality up to the target tag of a single mapping entry's values. -/
def eqTargetEntryB (k : String) (v1 v2 : Value) : Bool :=
  if k == targetKey then
    match v1, v2 with
    | .vcallable c, .vstr s => encodeId c == some s
    | a, b => eqUpToTarget a b
  else eqUpToTarget v1 v2

theorem representableKV_cons (k : String) (v : Value) (t : KVList) :
    representableKV (.cons k v t) = (reprEntryB k v && representableKV t) := by
  by_cases hk : (k == targetKey) = true
  · cases v <;> simp [representableKV, reprEntryB, hk]
  · cases v <;> simp [representableKV, reprEntryB, hk]

theorem encodeTargetsKV_cons (k : String) (v : Value) (t : KVList) :
    encodeTargetsKV (.cons k v t) = .cons k (encEntryB k v) (encodeTargetsKV t) := by
  by_cases hk : (k == targetKey) = true
  · cases v with
    | vcallable c => cases hc : encodeId c <;> simp [encodeTargetsKV, encEntryB, hk, hc]
    | vint n => simp [encodeTargetsKV, encEntryB, hk]
    | vfloat l => simp [encodeTargetsKV, encEntryB, hk]
    | vstr s => simp [encodeTargetsKV, encEntryB, hk]
    | vbool b => simp [encodeTargetsKV, encEntryB, hk]
    | vnone => simp [encodeTargetsKV, encEntryB, hk]
    | vobj d tg fs => simp [encodeTargetsKV, encEntryB, hk]
    | vlist xs => simp [encodeTargetsKV, encEntryB, hk]
    | vmap fs => simp [encodeTargetsKV, encEntryB, hk]
  · cases v <;> simp [encodeTargetsKV, encEntryB, hk]

theorem eqUpToTargetKV_cons (k1 k2 : String) (v1 v2 : Value) (t1 t2 : KVList) :
    eqUpToTargetKV (.cons k1 v1 t1) (.cons k2 v2 t2) =
      (k1 == k2 && eqTargetEntryB k1 v1 v2 && eqUpToTargetKV t1 t2) := by
  by_cases hk : (k1 == targetKey) = true
  · cases v1 <;> cases v2 <;> simp [eqUpToTargetKV, eqTargetEntryB, hk]
  · cases v1 <;> cases v2 <;> simp [eqUpToTargetKV, eqTargetEntryB, hk]

theorem eqTargetEntryB_enc (k : String) (v : Value)
    (hv : reprEntryB k v = true)
    (ih : representable v = true → eqUpToTarget v (encodeTargets v) = true) :
    eqTargetEntryB k v (encEntryB k v) = true := by
  by_cases hk : (k == targetKey) = true
  · cases v with
    | vcallable c =>
        simp only [reprEntryB, if_pos hk] at hv
        obtain ⟨s, hs⟩ := Option.isSome_iff_exists.mp hv
        simp [eqTargetEntryB, encEntryB, hk, hs]
    | vint n =>
        simp only [reprEntryB, if_pos hk] at hv
        simp only [eqTargetEntryB, encEntryB, if_pos hk]
        exact ih hv
    | vfloat l =>
        simp only [reprEntryB, if_pos hk] at hv
        simp only [eqTargetEntryB, encEntryB, if_pos hk]
        exact ih hv
    | vstr s =>
        simp only [reprEntryB, if_pos hk] at hv
        simp only [eqTargetEntryB, encEntryB, if_pos hk]
        exact ih hv
    | vbool b =>
        simp only [reprEntryB, if_pos hk] at hv
        simp only [eqTargetEntryB, encEntryB, if_pos hk]
        exact ih hv
    | vnone =>
        simp only [reprEntryB, if_pos hk] at hv
        simp only [eqTargetEntryB, encEntryB, if_pos hk]
        exact ih hv
    | vobj d tg fs =>
        simp only [reprEntryB, if_pos hk] at hv
        simp only [eqTargetEntryB, encEntryB, if_pos hk]
        exact ih hv
    | vlist xs =>
        simp only [reprEntryB, if_pos hk] at hv
        simp only [eqTargetEntryB, encEntryB, if_pos hk]
        exact ih hv
    | vmap fs =>
        simp only [reprEntryB, if_pos hk] at hv
        simp only [eqTargetEntryB, encEntryB, if_pos hk]
        exact ih hv
  · simp only [reprEntryB, if_neg hk] at hv
    simp only [eqTargetEntryB, encEntryB, if_neg hk]
    exact ih hv

mutual
theorem encodeTargets_eq (v : Value) (h : representable v = true) :
    eqUpToTarget v (encodeTargets v) = true := by
  cases v with
  | vint n => simp [encodeTargets, eqUpToTarget, veq]
  | vfloat l => simp [encodeTargets, eqUpToTarget, veq]
  | vstr s => simp [encodeTargets, eqUpToTarget, veq]
  | vbool b => simp [encodeTargets, eqUpToTarget, veq]
  | vnone => simp [encodeTargets, eqUpToTarget, veq]
  | vcallable c => exact absurd h (by simp [representable])
  | vobj d tg fs => exact absurd h (by simp [representable])
  | vlist xs =>
      have h2 : representableL xs = true := h
      show eqUpToTargetL xs (encodeTargetsL xs) = true
      exact encodeTargetsL_eq xs h2
  | vmap es =>
      have h2 : representableKV es = true := h
      show eqUpToTargetKV es (encodeTargetsKV es) = true
      exact encodeTargetsKV_eq es h2
termination_by sizeOf v

theorem encodeTargetsL_eq (xs : VList) (h : representableL xs = true) :
    eqUpToTargetL xs (encodeTargetsL xs) = true := by
  cases xs with
  | nil => rfl
  | cons v t =>
      have h2 : (representable v && representableL t) = true := h
      rw [Bool.and_eq_true] at h2
      show (eqUpToTarget v (encodeTargets v) && eqUpToTargetL t (encodeTargetsL t)) = true
      rw [encodeTargets_eq v h2.1, encodeTargetsL_eq t h2.2]
      rfl
termination_by sizeOf xs

theorem encodeTargetsKV_eq (es : KVList) (h : representableKV es = true) :
    eqUpToTargetKV es (encodeTargetsKV es) = true := by
  cases es with
  | nil => rfl
  | cons k v t =>
      rw [representableKV_cons, Bool.and_eq_true] at h
      rw [encodeTargetsKV_cons, eqUpToTargetKV_cons]
      rw [eqTargetEntryB_enc k v h.1 (encodeTargets_eq v),
        encodeTargetsKV_eq t h.2]
      simp
termination_by sizeOf es
end

theorem encEntryB_noCallables (k : String) (v : Value)
    (hv : reprEntryB k v = true)
    (ih : representable v = true → noCallables (encodeTargets v) = true) :
    noCallables (encEntryB k v) = true := by
  by_cases hk : (k == targetKey) = true
  · cases v with
    | vcallable c =>
        simp only [reprEntryB, if_pos hk] at hv
        obtain ⟨s, hs⟩ := Option.isSome_iff_exists.mp hv
        simp [encEntryB, hk, hs, noCallables]
    | vint n =>
        simp only [reprEntryB, if_pos hk] at hv
        simp only [encEntryB, if_pos hk]
        exact ih hv
    | vfloat l =>
        simp only [reprEntryB, if_pos hk] at hv
        simp only [encEntryB, if_pos hk]
        exact ih hv
    | vstr s =>
        simp only [reprEntryB, if_pos hk] at hv
        simp only [encEntryB, if_pos hk]
        exact ih hv
    | vbool b =>
        simp only [reprEntryB, if_pos hk] at hv
        simp only [encEntryB, if_pos hk]
        exact ih hv
    | vnone =>
        simp only [reprEntryB, if_pos hk] at hv
        simp only [encEntryB, if_pos hk]
        exact ih hv
    | vobj d tg fs =>
        simp only [reprEntryB, if_pos hk] at hv
        simp only [encEntryB, if_pos hk]
        exact ih hv
    | vlist xs =>
        simp only [reprEntryB, if_pos hk] at hv
        simp only [encEntryB, if_pos hk]
        exact ih hv
    | vmap fs =>
        simp only [reprEntryB, if_pos hk] at hv
        simp only [encEntryB, if_pos hk]
        exact ih hv
  · simp only [reprEntryB, if_neg hk] at hv
    simp only [encEntryB, if_neg hk]
    exact ih hv

mutual
theorem encodeTargets_noCallables (v : Value) (h : representable v = true) :
    noCallables (encodeTargets v) = true := by
  cases v with
  | vint n => rfl
  | vfloat l => rfl
  | vstr s => rfl
  | vbool b => rfl
  | vnone => rfl
  | vcallable c => exact absurd h (by simp [representable])
  | vobj d tg fs => exact absurd h (by simp [representable])
  | vlist xs =>
      have h2 : representableL xs = true := h
      show noCallablesL (encodeTargetsL xs) = true
      exact encodeTargetsL_noCallables xs h2
  | vmap es =>
      have h2 : representableKV es = true := h
      show noCallablesKV (encodeTargetsKV es) = true
      exact encodeTargetsKV_noCallables es h2
termination_by sizeOf v

theorem encodeTargetsL_noCallables (xs : VList) (h : representableL xs = true) :
    noCallablesL (encodeTargetsL xs) = true := by
  cases xs with
  | nil => rfl
  | cons v t =>
      have h2 : (representable v && representableL t) = true := h
      rw [Bool.and_eq_true] at h2
      show (noCallables (encodeTargets v) && noCallablesL (encodeTargetsL t)) = true
      rw [encodeTargets_noCallables v h2.1, encodeTargetsL_noCallables t h2.2]
      rfl
termination_by sizeOf xs

theorem encodeTargetsKV_noCallables (es : KVList) (h : representableKV es = true) :
    noCallablesKV (encodeTargetsKV es) = true := by
  cases es with
  | nil => rfl
  | cons k v t =>
      rw [representableKV_cons, Bool.and_eq_true] at h
      rw [encodeTargetsKV_cons]
      show (noCallables (encEntryB k v) && noCallablesKV (encodeTargetsKV t)) = true
      rw [encEntryB_noCallables k v h.1 (encodeTargets_noCallables v),
        encodeTargetsKV_noCallables t h.2]
      rfl
termination_by sizeOf es
end

/-- The configuration store produced by `LazyConfig.load` on
`tests/test_config/root_cfg.py`, modelled from the spec and the test
assertions: `dir1a_dict` with `a` mutated to `"modified"` after import,
`dir1b_dict` keeping the original `a = 1`, and `lazyobj` a Call
Descriptor over `itertools.count` with `x = "base_a_1"` and
`y = "base_a_1_from_b"`. -/
def rootCfg : Value := .vmap (kvOf [
  ("dir1a_dict", .vmap (kvOf [("a", .vstr "modified"), ("b", .vint 2)])),
  ("dir1b_dict", .vmap (kvOf [("a", .vint 1), ("b", .vint 2)])),
  ("lazyobj", .vmap (kvOf [
    (targetKey, .vcallable .count),
    ("x", .vstr "base_a_1"),
    ("y", .vstr "base_a_1_from_b")]))])

/-- Modelled from the spec: `LazyConfig.load` as a pure function of the
configuration file's content — loading `root_cfg.py` always rebuilds the
same fresh store, independent of any mutation applied to a previously
returned copy. -/
def lazyConfigLoad : String → Option Value :=
  fun name => if name == "root_cfg.py" then some rootCfg else none

/-- Claim C1: for every configuration store built purely from
representable values, the `load(save(C))` round trip returns a store
equal to `C` up to key ordering and the reserved-key target tag: each
Call Descriptor's `_target_` is related to the encoded string identity
of the original resolved callable, no resolved callable survives in the
reloaded store, and all other keys and values compare equal. -/
theorem claim_C1_roundtrip (C : Value) (h : representable C = true) :
    eqUpToTarget C (saveLoad C) = true ∧ noCallables (saveLoad C) = true := by
  have hs : saveLoad C = encodeTargets C := by
    simp [saveLoad, save, loadSaved, h]
  rw [hs]
  exact ⟨encodeTargets_eq C h, encodeTargets_noCallables C h⟩

/-- Witness for C1: the loaded root configuration is representable and
round-trips up to the target tag; in particular its reloaded `lazyobj`
target is the deferred string `"itertools.count"`. -/
theorem claim_C1_roundtrip_witness :
    representable rootCfg = true ∧
      (eqUpToTarget rootCfg (saveLoad rootCfg) = true ∧
        noCallables (saveLoad rootCfg) = true) :=
  ⟨rfl, claim_C1_roundtrip rootCfg rfl⟩

mutual
/-- A value in the Resolver's identity classes: a scalar, a resolved
callable, an already-constructed (non-dataclass) instance, a plain
mapping without the reserved target key, or a plain list of such
values. -/
def plainLeaf : Value → Bool
  | .vint _ => true
  | .vfloat _ => true
  | .vstr _ => true
  | .vbool _ => true
  | .vnone => true
  | .vcallable _ => true
  | .vobj false _ _ => true
  | .vobj true _ _ => false
  | .vmap es => !hasKey targetKey es
  | .vlist xs => plainLeafL xs

def plainLeafL : VList → Bool
  | .nil => true
  | .cons v t => plainLeaf v && plainLeafL t
end

mutual
theorem instantiate_plainLeaf (v : Value) (h : plainLeaf v = true) :
    instantiate v = .ok v := by
  cases v with
  | vint n => rfl
  | vfloat l => rfl
  | vstr s => rfl
  | vbool b => rfl
  | vnone => rfl
  | vcallable c => rfl
  | vobj d tg fs =>
      cases d with
      | false => rfl
      | true => simp [plainLeaf] at h
  | vmap es =>
      have h2 : hasKey targetKey es = false := by
        simpa [plainLeaf] using h
      simp [instantiate, h2]
  | vlist xs =>
      have h2 : plainLeafL xs = true := h
      simp [instantiate, instantiateL_plainLeaf xs h2]
termination_by sizeOf v

theorem instantiateL_plainLeaf (xs : VList) (h : plainLeafL xs = true) :
    instantiateL xs = .ok xs := by
  cases xs with
  | nil => rfl
  | cons v t =>
      have h2 : (plainLeaf v && plainLeafL t) = true := h
      rw [Bool.and_eq_true] at h2
      simp [instantiateL, instantiate_plainLeaf v h2.1,
        instantiateL_plainLeaf t h2.2]
termination_by sizeOf xs
end

/-- Claim C2: for every value that is not a Call Descriptor and not a
container requiring traversal — a scalar, an already-constructed class
instance, a plain list, or a plain mapping without the reserved
`_target_` key — `instantiate` returns it unchanged. -/
theorem claim_C2_identity (v : Value) (h : plainLeaf v = true) :
    instantiate v = .ok v :=
  instantiate_plainLeaf v h

/-- Witness for C2: the plain mapping of the test
(`instantiate({'xx': 'yy'}) is x`) is returned unchanged. -/
theorem claim_C2_identity_witness :
    plainLeaf (.vmap (kvOf [("xx", .vstr "yy")])) = true ∧
      instantiate (.vmap (kvOf [("xx", .vstr "yy")])) =
        .ok (.vmap (kvOf [("xx", .vstr "yy")])) :=
  ⟨rfl, claim_C2_identity (.vmap (kvOf [("xx", .vstr "yy")])) rfl⟩

/-- The store built by `L(L(len)(int_arg=3))(call_arg=4)` in
`test_instantiate_lazy_target`, before the test reassigns the inner
target. -/
def objconf : Value := .vmap (kvOf [
  (targetKey, .vmap (kvOf [(targetKey, .vcallable .pylen), ("int_arg", .vint 3)])),
  ("call_arg", .vint 4)])

/-- Claim C3: a descriptor whose target is itself an unresolved
descriptor is resolved in full — the inner descriptor is instantiated
first (here, after the test's mutation, producing `TestClass(int_arg=3)`),
every argument is resolved, and the resolved target is invoked with the
resolved arguments: called with `call_arg=4` the result is `3 + 4 = 7`. -/
theorem claim_C3_lazy_target :
    (match setPath objconf [targetKey, targetKey] (.vcallable .testClass) with
      | .ok c => instantiate c
      | .error e => .error e) = .ok (.vint 7) := rfl

/-- Claim C4 counterexample: the claim says every target that is not
callable, not a class and not a string is rejected at build time, but
`test_instantiate_lazy_target` builds `L(L(len)(int_arg=3))` — a mapping
target, neither callable nor a class nor a string — without an error. -/
theorem claim_C4_counterexample :
    isCallableClassOrString (.vmap (kvOf [(targetKey, .vcallable .pylen),
        ("int_arg", .vint 3)])) = false ∧
      (LazyCall (.vmap (kvOf [(targetKey, .vcallable .pylen),
        ("int_arg", .vint 3)]))).isOk = true :=
  ⟨rfl, rfl⟩

/-- Claim C4 (amended): constructing a Lazy Builder for a target that is
not callable, not a class, not a string and also not a mapping (such as
`LazyCall(3)`) fails immediately at build time with a ConstructionError,
before any builder exists that could defer the failure to call or
instantiate time. -/
theorem claim_C4_bad_target (t : Value)
    (h1 : isCallableClassOrString t = false) (h2 : isContainer t = false) :
    LazyCall t =
      .error "ConstructionError: LazyCall target must be callable, a class, or a string" := by
  cases t with
  | vint n => rfl
  | vfloat l => rfl
  | vbool b => rfl
  | vnone => rfl
  | vobj d tg fs => rfl
  | vlist xs => rfl
  | vstr s => simp [isCallableClassOrString] at h1
  | vcallable c => simp [isCallableClassOrString] at h1
  | vmap es => simp [isContainer] at h2

/-- Witness for C4: `LazyCall(3)` itself raises the ConstructionError at
build time. -/
theorem claim_C4_bad_target_witness :
    isCallableClassOrString (.vint 3) = false ∧ isContainer (.vint 3) = false ∧
      LazyCall (.vint 3) =
        .error "ConstructionError: LazyCall target must be callable, a class, or a string" :=
  ⟨rfl, rfl, claim_C4_bad_target (.vint 3) rfl rfl⟩

/-- The store of `test_failed_save`: a configuration holding a lambda,
not representable in the textual format. -/
def lambdaCfg : Value := .vmap (kvOf [("x", .vcallable .lam)])

/-- Claim C6: saving a store holding a value that the textual format
cannot represent still succeeds — the primary text file is written, the
opaque binary side-channel artifact is additionally written (and carries
the whole store losslessly, so a subsequent load recovers it), and a
warning is emitted instead of a failure. -/
theorem claim_C6_degraded_save :
    representable lambdaCfg = false ∧
      (save lambdaCfg).primary = encodeTargets lambdaCfg ∧
      (save lambdaCfg).sideChannel = some lambdaCfg ∧
      (save lambdaCfg).warned = true ∧
      loadSaved (save lambdaCfg) = lambdaCfg :=
  ⟨rfl, rfl, rfl, rfl, rfl⟩

/-- The root store after the mutation `cfg.lazyobj.x = "new_x"` of
`test_load`. -/
def rootCfgMutated : Value := .vmap (kvOf [
  ("dir1a_dict", .vmap (kvOf [("a", .vstr "modified"), ("b", .vint 2)])),
  ("dir1b_dict", .vmap (kvOf [("a", .vint 1), ("b", .vint 2)])),
  ("lazyobj", .vmap (kvOf [
    (targetKey, .vcallable .count),
    ("x", .vstr "new_x"),
    ("y", .vstr "base_a_1_from_b")]))])

/-- Claim C9: `LazyConfig.load` always produces an independent copy —
loading the root config yields `cfg.lazyobj.x == "base_a_1"`; mutating
the loaded store to `"new_x"` produces a new store and does not affect
what a subsequent load of the same file returns, which again carries the
original value. -/
theorem claim_C9_load_independent :
    lazyConfigLoad "root_cfg.py" = some rootCfg ∧
      getPath rootCfg ["lazyobj", "x"] = some (.vstr "base_a_1") ∧
      setPath rootCfg ["lazyobj", "x"] (.vstr "new_x") = .ok rootCfgMutated ∧
      getPath rootCfgMutated ["lazyobj", "x"] = some (.vstr "new_x") ∧
      (lazyConfigLoad "root_cfg.py").map (fun c => getPath c ["lazyobj", "x"]) =
        some (some (.vstr "base_a_1")) :=
  ⟨rfl, rfl, rfl, rfl, rfl⟩

theorem setPath_error_through_nonContainer (p : List String) :
    ∀ (store w : Value) (q : List String) (nv : Value),
      getPath store p = some w → isContainer w = false → q ≠ [] →
      ∃ msg, setPath store (p ++ q) nv = .error msg := by
  induction p with
  | nil =>
      intro store w q nv hw hnc hq
      obtain rfl : store = w := by simpa [getPath] using hw
      cases q with
      | nil => exact absurd rfl hq
      | cons k qs =>
          cases store with
          | vmap es => simp [isContainer] at hnc
          | vint n => exact ⟨_, rfl⟩
          | vfloat l => exact ⟨_, rfl⟩
          | vstr s => exact ⟨_, rfl⟩
          | vbool b => exact ⟨_, rfl⟩
          | vnone => exact ⟨_, rfl⟩
          | vcallable c => exact ⟨_, rfl⟩
          | vobj d tg fs => exact ⟨_, rfl⟩
          | vlist xs => exact ⟨_, rfl⟩
  | cons k ps ih =>
      intro store w q nv hw hnc hq
      cases store with
      | vint n => simp [getPath] at hw
      | vfloat l => simp [getPath] at hw
      | vstr s => simp [getPath] at hw
      | vbool b => simp [getPath] at hw
      | vnone => simp [getPath] at hw
      | vcallable c => simp [getPath] at hw
      | vobj d tg fs => simp [getPath] at hw
      | vlist xs => simp [getPath] at hw
      | vmap es =>
          cases hf : findVal k es with
          | none => simp [getPath, hf] at hw
          | some child =>
              simp only [getPath, hf] at hw
              obtain ⟨msg, hmsg⟩ := ih child w q nv hw hnc hq
              cases hpq : ps ++ q with
              | nil =>
                  cases q with
                  | nil => exact absurd rfl hq
                  | cons a as => simp at hpq
              | cons a as =>
                  rw [hpq] at hmsg
                  refine ⟨msg, ?_⟩
                  rw [List.cons_append, hpq]
                  simp [setPath, hf, hmsg]

/-- Claim C5: an override string whose dotted path traverses a
non-container intermediate value raises the KeyError-kind failure, and
the batch application returns that failure without yielding any modified
store. -/
theorem claim_C5_override_error (store w : Value) (ov : String)
    (p q : List String) (lit : Value)
    (hparse : parseOverride ov = some (p ++ q, lit))
    (hw : getPath store p = some w) (hnc : isContainer w = false)
    (hq : q ≠ []) :
    ∃ msg, applyOverride store ov = .error msg ∧
      apply_overrides store [ov] = .error msg := by
  obtain ⟨msg, hmsg⟩ := setPath_error_through_nonContainer p store w q lit hw hnc hq
  refine ⟨msg, ?_, ?_⟩
  · simp [applyOverride, hparse, hmsg]
  · simp [apply_overrides, applyOverride, hparse, hmsg]

/-- Witness for C5: applying `"lazyobj.x.xxx=123"` to the root store,
where `lazyobj.x` is the scalar `"base_a_1"`, raises the KeyError-kind
failure. -/
theorem claim_C5_override_error_witness :
    parseOverride "lazyobj.x.xxx=123" =
        some (["lazyobj", "x"] ++ ["xxx"], .vint 123) ∧
      getPath rootCfg ["lazyobj", "x"] = some (.vstr "base_a_1") ∧
      isContainer (.vstr "base_a_1") = false ∧
      (["xxx"] : List String) ≠ [] ∧
      ∃ msg, applyOverride rootCfg "lazyobj.x.xxx=123" = .error msg ∧
        apply_overrides rootCfg ["lazyobj.x.xxx=123"] = .error msg :=
  ⟨rfl, rfl, rfl, by simp,
    claim_C5_override_error rootCfg (.vstr "base_a_1") "lazyobj.x.xxx=123"
      ["lazyobj", "x"] ["xxx"] (.vint 123) rfl rfl rfl (by simp)⟩

/-- Attribute access on an instantiated object or mapping node. -/
def objField : Value → String → Option Value
  | .vobj _ _ fs, k => findVal k fs
  | .vmap es, k => findVal k es
  | _, _ => none

/-- The store of `test_interpolation`:
`L(TestClass)(int_arg=3, extra_arg="$\x7bint_arg\x7d")`. -/
def cfg7 : Value := .vmap (kvOf [
  (targetKey, .vcallable .testClass),
  ("int_arg", .vint 3),
  ("extra_arg", .vstr "$\x7bint_arg\x7d")])

/-- Claim C7: with `extra_arg` holding an interpolation expression over
`int_arg`, mutating `int_arg` to 4 before resolution makes `instantiate`
produce an object whose `extra_arg` is 4; the save/load round trip
preserves the interpolation expression itself (not its resolved value),
so mutating `int_arg` to 5 on the reloaded store again changes the
resolved `extra_arg` to 5. -/
theorem claim_C7_interpolation :
    (match setPath cfg7 ["int_arg"] (.vint 4) with
      | .ok c => (instantiateTop c).map (fun o => objField o "extra_arg")
      | .error e => .error e) = .ok (some (.vint 4)) ∧
      getPath (saveLoad cfg7) ["extra_arg"] = some (.vstr "$\x7bint_arg\x7d") ∧
      (match setPath (saveLoad cfg7) ["int_arg"] (.vint 5) with
        | .ok c => (instantiateTop c).map (fun o => objField o "extra_arg")
        | .error e => .error e) = .ok (some (.vint 5)) :=
  ⟨rfl, rfl, rfl⟩

/-- Double quote as a one-character string. -/
def quoteStr (s : String) : String := "\"" ++ s ++ "\""

/-- Rendering of a Call Descriptor's target as the dotted name used in
the exported source. -/
def targetNameOf : Value → String
  | .vcallable c => (encodeId c).getD "<callable>"
  | .vstr s => s
  | _ => "<target>"

mutual
/-- Modelled from the spec (`to_source` contract, spec section 4.5):
one-line rendering of a value as a python expression — scalars as
literals, sequences as `[...]`, Call Descriptors as
`encoded.target.name(arg=..., ...)` call expressions, other mappings as
dict displays, with stable (insertion) key ordering. -/
def inlineVal : Value → String
  | .vint n => toString n
  | .vfloat lit => lit
  | .vstr s => quoteStr s
  | .vbool b => if b then "True" else "False"
  | .vnone => "None"
  | .vcallable c => (encodeId c).getD "<callable>"
  | .vobj _ tg _ => "<" ++ tg ++ ">"
  | .vlist .nil => "[]"
  | .vlist (.cons v t) => "[" ++ inlineVal v ++ inlineLRest t ++ "]"
  | .vmap .nil => "\x7b\x7d"
  | .vmap (.cons k v rest) =>
      if k == targetKey then targetNameOf v ++ "(" ++ inlineArgs rest ++ ")"
      else "\x7b" ++ quoteStr k ++ ": " ++ inlineVal v ++ inlineKVRest rest ++ "\x7d"

def inlineLRest : VList → String
  | .nil => ""
  | .cons v t => ", " ++ inlineVal v ++ inlineLRest t

def inlineKVRest : KVList → String
  | .nil => ""
  | .cons k v t => ", " ++ quoteStr k ++ ": " ++ inlineVal v ++ inlineKVRest t

def inlineArgs : KVList → String
  | .nil => ""
  | .cons k v .nil => k ++ "=" ++ inlineVal v
  | .cons k v t => k ++ "=" ++ inlineVal v ++ ", " ++ inlineArgs t
end

/-- Four spaces of indentation per nesting level. -/
def indentStr : Nat → String
  | 0 => ""
  | n + 1 => "    " ++ indentStr n

/-- The width threshold of the canonical layout. -/
def widthLimit : Nat := 88

mutual
/-- Modelled from the spec (`to_source` contract, spec section 4.5):
render `pre ++ expression ++ suf` at an indentation level; a short
expression stays on one line, and the canonical multi-line layout is
used exactly when the one-line form would exceed the width threshold —
a call expression then opens with `target(`, renders each argument
`name=value,` one level deeper, and closes with `)`; a dict display
opens with a brace, renders each `"key": value,` entry one level deeper,
and closes with the matching brace; a sequence likewise with square
brackets. -/
def renderLines (ind : Nat) (pre : String) (v : Value) (suf : String) :
    List String :=
  let oneLine := indentStr ind ++ pre ++ inlineVal v ++ suf
  if oneLine.length ≤ widthLimit then [oneLine]
  else
    match v with
    | .vmap (.cons k tv rest) =>
        if k == targetKey then
          [indentStr ind ++ pre ++ targetNameOf tv ++ "("] ++
            renderArgs (ind + 1) rest ++
            [indentStr ind ++ ")" ++ suf]
        else
          [indentStr ind ++ pre ++ "\x7b"] ++
            (renderLines (ind + 1) (quoteStr k ++ ": ") tv "," ++
              renderDict (ind + 1) rest) ++
            [indentStr ind ++ "\x7d" ++ suf]
    | .vlist (.cons w t) =>
        [indentStr ind ++ pre ++ "["] ++
          (renderLines (ind + 1) "" w "," ++ renderList (ind + 1) t) ++
          [indentStr ind ++ "]" ++ suf]
    | _ => [oneLine]

def renderArgs (ind : Nat) : KVList → List String
  | .nil => []
  | .cons k v t => renderLines ind (k ++ "=") v "," ++ renderArgs ind t

def renderDict (ind : Nat) : KVList → List String
  | .nil => []
  | .cons k v t =>
      renderLines ind (quoteStr k ++ ": ") v "," ++ renderDict ind t

def renderList (ind : Nat) : VList → List String
  | .nil => []
  | .cons v t => renderLines ind "" v "," ++ renderList ind t
end

mutual
/-- Modelled from the spec: the assignment-statement layer of
`LazyConfig.to_py` — a mapping without the reserved key is flattened
into dotted-path assignments, one per leaf; any other value becomes a
single `cfg.path.to.field = expression` assignment. -/
def assignLines (path : String) : Value → List String
  | .vmap es =>
      if hasKey targetKey es then
        renderLines 0 (path ++ " = ") (.vmap es) ""
      else assignKV path es
  | v => renderLines 0 (path ++ " = ") v ""

def assignKV (path : String) : KVList → List String
  | .nil => []
  | .cons k v t => assignLines (path ++ "." ++ k) v ++ assignKV path t
end

/-- Concatenate rendered lines, each terminated by a newline. -/
def joinLines : List String → String
  | [] => ""
  | l :: t => l ++ "\n" ++ joinLines t

/-- Modelled from the spec and `test_to_py`: `LazyConfig.to_py` resolves
the store's interpolation expressions and renders the result as an
ordered sequence of assignment statements. -/
def to_py (store : Value) : Except String String :=
  match resolveInterp store 1000 store with
  | .ok r => .ok (joinLines (assignLines "cfg" r))
  | .error e => .error e

/-- The dict assigned to `cfg.lazyobj.x` in `test_to_py`. -/
def bigX : Value := .vmap (kvOf [
  ("a", .vint 1), ("b", .vint 2),
  ("c", .vmap (kvOf [(targetKey, .vcallable .count),
    ("x", .vmap (kvOf [("r", .vstr "a"), ("s", .vfloat "2.4"),
      ("t", .vlist (vlOf [.vint 1, .vint 2, .vint 3, .vstr "z"]))]))]))])

/-- The list assigned to `cfg.list` in `test_to_py`. -/
def listVal : Value := .vlist (vlOf [.vstr "a", .vint 1, .vstr "b", .vfloat "3.2"])

/-- The `to_py` export of the root store after the two mutations of
`test_to_py`. -/
def toPyResult : Except String String :=
  match setPath rootCfg ["lazyobj", "x"] bigX with
  | .ok s1 =>
      match setPath s1 ["list"] listVal with
      | .ok s2 => to_py s2
      | .error e => .error e
  | .error e => .error e

/-- The source text `test_to_py` expects. -/
def expectedPy : String :=
  "cfg.dir1a_dict.a = \"modified\"\n" ++
  "cfg.dir1a_dict.b = 2\n" ++
  "cfg.dir1b_dict.a = 1\n" ++
  "cfg.dir1b_dict.b = 2\n" ++
  "cfg.lazyobj = itertools.count(\n" ++
  "    x=\x7b\n" ++
  "        \"a\": 1,\n" ++
  "        \"b\": 2,\n" ++
  "        \"c\": itertools.count(x=\x7b\"r\": \"a\", \"s\": 2.4, \"t\": [1, 2, 3, \"z\"]\x7d),\n" ++
  "    \x7d,\n" ++
  "    y=\"base_a_1_from_b\",\n" ++
  ")\n" ++
  "cfg.list = [\"a\", 1, \"b\", 3.2]\n"

theorem renderLines_multiline_iff (ind : Nat) (pre suf k : String)
    (tv : Value) (rest : KVList) :
    (renderLines ind pre (.vmap (.cons k tv rest)) suf).length = 1 ↔
      (indentStr ind ++ pre ++ inlineVal (.vmap (.cons k tv rest)) ++ suf).length ≤
        widthLimit := by
  by_cases hfit : (indentStr ind ++ pre ++ inlineVal (.vmap (.cons k tv rest)) ++
      suf).length ≤ widthLimit
  · simp only [renderLines]
    rw [if_pos hfit]
    simpa using hfit
  · constructor
    · intro h1
      exfalso
      revert h1
      simp only [renderLines, if_neg hfit]
      by_cases hk : (k == targetKey) = true <;> simp [hk]
    · intro h2
      exact absurd h2 hfit

/-- Claim C8: `to_py` renders the store as an ordered sequence of
`cfg.path.to.field = literal` assignments with stable key ordering,
renders nested Call Descriptors as call expressions on the encoded
dotted target name recursively (the `test_to_py` store produces exactly
the expected source text), and a nonempty mapping expression is kept on
one line exactly when that line would not exceed the width threshold. -/
theorem claim_C8_to_py :
    toPyResult = .ok expectedPy ∧
      ∀ (ind : Nat) (pre suf k : String) (tv : Value) (rest : KVList),
        ((renderLines ind pre (.vmap (.cons k tv rest)) suf).length = 1 ↔
          (indentStr ind ++ pre ++ inlineVal (.vmap (.cons k tv rest)) ++
            suf).length ≤ widthLimit) :=
  ⟨by set_option maxRecDepth 8000 in exact rfl, renderLines_multiline_iff⟩

/-- A store whose `lazyobj.y` holds an interpolation expression over the
top-level field `dir1b_str`. -/
def interpCfg : Value := .vmap (kvOf [
  ("dir1b_str", .vstr "base_a_1_from_b"),
  ("lazyobj", .vmap (kvOf [(targetKey, .vcallable .count),
    ("y", .vstr "$\x7bdir1b_str\x7d")]))])

/-- Claim C10: `to_py` renders a field whose stored value is an
interpolation expression at its resolved value — the exported source
contains `y="base_a_1_from_b"`, not the expression — even though the
save/load round trip preserves the interpolation expression itself. -/
theorem claim_C10_to_py_resolves :
    to_py interpCfg =
        .ok ("cfg.dir1b_str = \"base_a_1_from_b\"\n" ++
          "cfg.lazyobj = itertools.count(y=\"base_a_1_from_b\")\n") ∧
      getPath (saveLoad interpCfg) ["lazyobj", "y"] =
        some (.vstr "$\x7bdir1b_str\x7d") :=
  ⟨rfl, rfl⟩
